import Mathlib


/-!
Verification of the voice-assistant backend core against its specification.

The development shallowly embeds the Python sources
`backend/models/conversation.py`, `backend/services/voice_pipeline.py` and
`backend/services/analytics_service.py`.  Pure functions become Lean
functions; the mutable session stores become explicit state values that are
passed and returned; calls to external capabilities (transcription,
retrieval, generation, synthesis) become oracle parameters; a Python
exception raised by a capability call is modelled with `Except`; wall-clock
readings (`time.time()`, `datetime.now()`) become explicit timestamp
arguments.  Machine floats are modelled by `ℚ`.
-/


/-! ## Generic list helpers used by the embedding -/


/-- Python slice `l[-n:]`: the last `n` elements of `l` (all of `l` when
`l.length ≤ n`). -/
def lastN (n : Nat) (l : List α) : List α :=
  l.drop (l.length - n)


/-- Lookup in an association list, mirroring a Python `dict.get`. -/
def alookup [DecidableEq κ] : List (κ × α) → κ → Option α
  | [], _ => none
  | (k, v) :: t, key => if k = key then some v else alookup t key


/-- Assignment `d[key] = v` on a Python dict modelled as an association
list: replaces the binding in place, or appends a new binding (Python
dicts preserve insertion order). -/
def aset [DecidableEq κ] : List (κ × α) → κ → α → List (κ × α)
  | [], key, v => [(key, v)]
  | (k, w) :: t, key, v => if k = key then (key, v) :: t else (k, w) :: aset t key v


/-- Deletion `del d[key]` on a Python dict modelled as an association
list. -/
def removeKey [DecidableEq κ] : List (κ × α) → κ → List (κ × α)
  | [], _ => []
  | (k, v) :: t, key => if k = key then removeKey t key else (k, v) :: removeKey t key


/-! ## Decimal rounding

`round(x, 2)` from Python, modelled on `ℚ` (ties rounded half-up; the
theorems below only apply it where the value is exact to two decimals, so
the tie convention is immaterial). -/


/-- Round a rational to the nearest integer, halves up. -/
def qround (q : ℚ) : ℤ :=
  Int.fdiv (2 * q.num + q.den) (2 * q.den)


/-- Round a rational to two decimal places. -/
def round2 (q : ℚ) : ℚ :=
  (qround (q * 100) : ℚ) / 100


/-! ## Character-list string primitives

`str.replace`, substring membership (`in`) and `str.lower` from Python,
implemented over `List Char` so that every definition evaluates by kernel
reduction. -/


/-- Does `p` lead the list `l` (Python `l.startswith(p)` on characters)? -/
def leadsWith : List Char → List Char → Bool
  | [], _ => true
  | _ :: _, [] => false
  | p :: ps, c :: cs => p == c && leadsWith ps cs


/-- Does `pat` occur contiguously inside `s` (Python `pat in s`)? -/
def containsSub : List Char → List Char → Bool
  | [], pat => leadsWith pat []
  | c :: rest, pat => leadsWith pat (c :: rest) || containsSub rest pat


/-- Replace every occurrence of `pat` in the worklist, scanning left to
right without rescanning replacements, exactly like Python `str.replace`.
The fuel argument starts at the length of the list and bounds the
recursion; one character at least is consumed per step, so the fuel never
runs out on the initial call. -/
def replChars : Nat → List Char → List Char → List Char → List Char
  | 0, _, _, l => l
  | _ + 1, _, _, [] => []
  | fuel + 1, pat, rep, c :: rest =>
    if leadsWith pat (c :: rest) then
      rep ++ replChars fuel pat rep (List.drop (pat.length - 1) rest)
    else
      c :: replChars fuel pat rep rest


/-- Python `s.replace(pat, rep)` for a non-empty literal pattern. -/
def strReplace (s pat rep : String) : String :=
  ⟨replChars s.data.length pat.data rep.data s.data⟩


/-- Python `s.lower()` (ASCII lowering suffices for the fixed keyword
tables of the source). -/
def lowerStr (s : String) : String :=
  ⟨s.data.map Char.toLower⟩


/-- Python `pat in s` on strings. -/
def strHas (s pat : String) : Bool :=
  containsSub s.data pat.data


/-! ## Conversation sessions — `models/conversation.py` -/


/-- One message of the conversation history of a session.  The Python dict for a
user turn carries a `confidence` key, the assistant turn does not; the
optional field models that. -/
structure SessMsg where
  role : String
  content : String
  timestamp : String
  confidence : Option ℚ
deriving DecidableEq, Repr


/-- Model of `ConversationSession` from `models/conversation.py`.  Timestamps are
rationals (seconds); `metadata` is an uninterpreted string map. -/
structure ConversationSession where
  id : String
  client_id : String
  user_id : Option String
  start_time : ℚ
  end_time : Option ℚ
  status : String
  total_interactions : Nat
  conversation_history : List SessMsg
  metadata : List (String × String)
deriving DecidableEq, Repr


/-- Model of `ConversationSession.add_interaction`: appends the user and assistant
messages, increments the interaction counter, then keeps only the last 50
messages.  `t` stands for the `datetime.now().isoformat()` reading. -/
def ConversationSession.add_interaction (s : ConversationSession)
    (user_message ai_response : String) (confidence : ℚ) (t : String) :
    ConversationSession :=
  let h := s.conversation_history ++
    [⟨"user", user_message, t, some confidence⟩,
     ⟨"assistant", ai_response, t, none⟩]
  let s' := { s with conversation_history := h,
                     total_interactions := s.total_interactions + 1 }
  if s'.conversation_history.length > 50 then
    { s' with conversation_history := lastN 50 s'.conversation_history }
  else s'


/-- One completed user/assistant exchange, as fed to `add_interaction`. -/
structure Exchange where
  user : String
  ai : String
  confidence : ℚ
  t : String
deriving DecidableEq, Repr


/-- The two history messages an exchange contributes. -/
def Exchange.msgs (x : Exchange) : List SessMsg :=
  [⟨"user", x.user, x.t, some x.confidence⟩, ⟨"assistant", x.ai, x.t, none⟩]


/-- Sequentially add a list of exchanges to a session. -/
def addAll (s : ConversationSession) (xs : List Exchange) : ConversationSession :=
  xs.foldl (fun s x => s.add_interaction x.user x.ai x.confidence x.t) s


/-- The full chronological message sequence of a list of exchanges. -/
def msgsOf (xs : List Exchange) : List SessMsg :=
  xs.foldr (fun x acc => x.msgs ++ acc) []


/-- A freshly created session (empty history, zero counters). -/
def freshSession (id client_id : String) (user_id : Option String) (t : ℚ) :
    ConversationSession :=
  { id := id, client_id := client_id, user_id := user_id, start_time := t,
    end_time := none, status := "active", total_interactions := 0,
    conversation_history := [], metadata := [] }


/-- Twenty-six identical exchanges applied to a fresh session: the first
point at which FIFO truncation of the 50-message window has discarded
messages. -/
def sessionAfter26 : ConversationSession :=
  addAll (freshSession "s" "c" none 0) (List.replicate 26 ⟨"u", "a", 1, "t"⟩)


/-! ## Session manager — `ConversationManager` in `models/conversation.py` -/


/-- State of a `ConversationManager`: active sessions keyed by client id
(a Python dict, insertion ordered), the ended-session history, and the
configured active-session ceiling (`__init__` sets 1000). -/
structure ConversationManager where
  active_sessions : List (String × ConversationSession)
  session_history : List ConversationSession
  max_active_sessions : Nat
deriving DecidableEq, Repr


/-- Manager state built by `ConversationManager.__init__`. -/
def initialConversationManager : ConversationManager :=
  { active_sessions := [], session_history := [], max_active_sessions := 1000 }


/-- The mutation `end_session` applies to a session it ends. -/
def endedVersion (s : ConversationSession) (now : ℚ) : ConversationSession :=
  { s with end_time := some now, status := "ended" }


/-- Model of `ConversationManager.end_session`: marks the session ended, moves it
from the active map to the history list; returns `none` when the client
has no active session. -/
def ConversationManager.end_session (m : ConversationManager) (client_id : String)
    (now : ℚ) : Option ConversationSession × ConversationManager :=
  match alookup m.active_sessions client_id with
  | some s =>
    let s' := endedVersion s now
    (some s', { m with active_sessions := removeKey m.active_sessions client_id,
                       session_history := m.session_history ++ [s'] })
  | none => (none, m)


/-- The age test of `_cleanup_old_sessions`: sessions started more than
3600 seconds ago. -/
def sessionIsOld (now : ℚ) (s : ConversationSession) : Bool :=
  decide (now - s.start_time > 3600)


/-- Model of `ConversationManager._cleanup_old_sessions`: collects the client ids of
every active session older than one hour, then ends each of them. -/
def ConversationManager.cleanup_old_sessions (m : ConversationManager) (now : ℚ) :
    ConversationManager :=
  let sessions_to_remove :=
    (m.active_sessions.filter (fun p => sessionIsOld now p.2)).map Prod.fst
  sessions_to_remove.foldl (fun acc cid => (acc.end_session cid now).2) m


/-- The session record `create_session` allocates. -/
def newSessionFor (client_id : String) (user_id : Option String)
    (session_id : String) (now : ℚ) : ConversationSession :=
  { id := session_id, client_id := client_id, user_id := user_id,
    start_time := now, end_time := none, status := "active",
    total_interactions := 0, conversation_history := [],
    metadata := [("created_by", "voice_assistant"), ("version", "1.0")] }


/-- Model of `ConversationManager.create_session`: allocates a fresh session; when
the active map is at or above the ceiling it first runs
`_cleanup_old_sessions`, then stores the new session unconditionally. -/
def ConversationManager.create_session (m : ConversationManager) (client_id : String)
    (user_id : Option String) (session_id : String) (now : ℚ) :
    ConversationSession × ConversationManager :=
  let session := newSessionFor client_id user_id session_id now
  let m1 := if m.active_sessions.length ≥ m.max_active_sessions then
      m.cleanup_old_sessions now
    else m
  (session, { m1 with active_sessions := aset m1.active_sessions client_id session })


/-- Model of `ConversationManager.add_interaction`: appends an exchange to the
active session of the client, reporting `false` (not an error) when there is
none. -/
def ConversationManager.add_interaction (m : ConversationManager)
    (client_id user_message ai_response : String) (confidence : ℚ) (t : String) :
    Bool × ConversationManager :=
  match alookup m.active_sessions client_id with
  | some s =>
    let s' := s.add_interaction user_message ai_response confidence t
    (true, { m with active_sessions := aset m.active_sessions client_id s' })
  | none => (false, m)


/-- A manager already at its (small) ceiling with two young sessions. -/
def fullManagerTwo : ConversationManager :=
  { active_sessions := [("a", freshSession "sa" "a" none 0), ("b", freshSession "sb" "b" none 0)],
    session_history := [], max_active_sessions := 2 }


/-- The ending loop of `_cleanup_old_sessions`, run over an explicit list
of client ids. -/
def runEnds (m : ConversationManager) (ids : List String) (now : ℚ) :
    ConversationManager :=
  ids.foldl (fun acc cid => (acc.end_session cid now).2) m


/-- Witness for C6 amended, at a manager that is at a ceiling of 2 with one
stale session (started at time 0, observed at 4000 seconds) and one fresh
one (started at 3000). -/
def staleFreshManager : ConversationManager :=
  { active_sessions := [("a", freshSession "sa" "a" none 0), ("b", freshSession "sb" "b" none 3000)],
    session_history := [], max_active_sessions := 2 }


/-! ## Pipeline orchestrator — `services/voice_pipeline.py`

`process_audio_chunk` is embedded as a function of the session
store and of a bundle of capability oracles describing what each external
call returns — or raises, modelled with `Except` — on this invocation.
The synthesis oracle is total (`Option`, no exception) because the only
synthesis implementation, `ElevenLabsService.text_to_speech`, catches every
exception internally and returns `None`.  `t0` is the `time.time()` reading
taken at entry, `t1` the reading taken where a result is produced. -/


/-- Raw audio bytes. -/
abbrev AudioData := List Nat


/-- Result dict of `DeepgramService.transcribe_audio_chunk`. -/
structure TranscriptionResult where
  transcript : String
  confidence : ℚ
deriving DecidableEq, Repr


/-- The `VoiceResponse` dataclass. -/
structure VoiceResponse where
  audio_data : Option AudioData
  transcript : String
  ai_response : String
  confidence : ℚ
  processing_time : ℚ
  session_id : String
deriving DecidableEq, Repr


/-- One message of the conversation history held by the pipeline itself. -/
structure ChatMsg where
  role : String
  content : String
deriving DecidableEq, Repr


/-- One entry of `VoicePipeline.active_sessions`. -/
structure SessionContext where
  history : List ChatMsg
  user_id : Option String
  start_time : ℚ
  total_interactions : Nat
  last_interaction : Option ℚ
deriving DecidableEq, Repr


/-- The dict `_get_session_context` creates on first access (it has no
`last_interaction` key yet). -/
def freshContext (t : ℚ) : SessionContext :=
  { history := [], user_id := none, start_time := t,
    total_interactions := 0, last_interaction := none }


/-- Mutable state of a `VoicePipeline` object. -/
structure PipelineState where
  min_confidence_threshold : ℚ
  active_sessions : List (String × SessionContext)
deriving DecidableEq, Repr


/-- Pipeline state built by `VoicePipeline.__init__` (threshold 0.7, no
sessions). -/
def initialPipelineState : PipelineState :=
  { min_confidence_threshold := 7/10, active_sessions := [] }


/-- Capability oracles: what each external stage call does on this
invocation.  An `Except.error` value models the call raising an
exception. -/
structure Capabilities where
  transcribe : AudioData → Except String (Option TranscriptionResult)
  retrieve : String → Option String → List ChatMsg → Except String String
  generate : String → String → List ChatMsg → String → Except String (Option String)
  tts : String → Option AudioData


/-- Model of `VoicePipeline._get_session_context`: lazily creates a fresh context
for an unknown session id. -/
def getSessionContext (st : PipelineState) (session_id : String) (t : ℚ) :
    SessionContext × PipelineState :=
  match alookup st.active_sessions session_id with
  | some ctx => (ctx, st)
  | none =>
    let ctx := freshContext t
    (ctx, { st with active_sessions := aset st.active_sessions session_id ctx })


/-- Model of `VoicePipeline._update_session_context`: appends the exchange, keeps
only the last 20 messages, increments the counter, stamps the
interaction time. -/
def updateSessionContext (st : PipelineState)
    (session_id user_message ai_response : String) (t : ℚ) : PipelineState :=
  let pr := getSessionContext st session_id t
  let ctx := pr.1
  let st1 := pr.2
  let h := ctx.history ++ [⟨"user", user_message⟩, ⟨"assistant", ai_response⟩]
  let h' := if h.length > 20 then lastN 20 h else h
  let ctx' := { ctx with history := h',
                         total_interactions := ctx.total_interactions + 1,
                         last_interaction := some t }
  { st1 with active_sessions := aset st1.active_sessions session_id ctx' }


/-- The fixed clarification reply of `_generate_clarification_response`. -/
def clarificationText : String :=
  "I\x27m sorry, I didn\x27t catch that clearly. Could you please repeat your question?"


/-- The fixed apology substituted when generation returns nothing. -/
def apologyText : String :=
  "I apologize, but I\x27m having trouble processing your request right now. Could you please try again?"


/-- The fixed reply of the top-level exception handler. -/
def errorText : String :=
  "I\x27m sorry, I encountered a technical issue. Please try again or speak with a human agent."


/-- Model of `VoicePipeline._get_customer_service_prompt`. -/
def customerServicePrompt : String :=
  "You are an expert AI customer service representative. Your goals are:\n\n1. SOLVE PROBLEMS: Focus on resolving the customer\x27s issue quickly and effectively\n2. BE EMPATHETIC: Show understanding and care for customer concerns\n3. STAY PROFESSIONAL: Maintain a helpful, courteous tone at all times\n4. BE CONCISE: Keep responses brief but complete - this is a voice conversation\n5. USE CONTEXT: Leverage provided information to give personalized responses\n6. ESCALATE WHEN NEEDED: If you can\x27t help, offer to connect with a human agent\n\nVoice Conversation Guidelines:\n- Speak naturally and conversationally\n- Use short, clear sentences\n- Avoid technical jargon unless necessary\n- Confirm understanding when handling complex requests\n- Express empathy for frustrations or problems\n\nRemember: The customer called for help. Your job is to provide excellent service and leave them satisfied with their experience."


/-- Model of `GroqService.optimize_for_voice`: markdown stripping, abbreviation
expansion in dict order, pause insertion — a pure text transform. -/
def optimize_for_voice (text : String) : String :=
  let text := strReplace text "**" ""
  let text := strReplace text "*" ""
  let text := strReplace text "_" ""
  let text := strReplace text "e.g." "for example"
  let text := strReplace text "i.e." "that is"
  let text := strReplace text "etc." "and so on"
  let text := strReplace text "&" "and"
  let text := strReplace text "@" "at"
  let text := strReplace text "#" "number"
  let text := strReplace text "%" "percent"
  let text := strReplace text "$" "dollars"
  let text := strReplace text ". " ". ... "
  let text := strReplace text "? " "? ... "
  strReplace text "! " "! ... "


/-- The empty-transcription short-circuit result (step 1). -/
def emptyResult (session_id : String) (t0 t1 : ℚ) : VoiceResponse :=
  { audio_data := none, transcript := "", ai_response := "", confidence := 0,
    processing_time := t1 - t0, session_id := session_id }


/-- Model of `_generate_clarification_response` (low-confidence short circuit). -/
def clarificationResult (caps : Capabilities) (session_id : String) (t0 t1 : ℚ) :
    VoiceResponse :=
  { audio_data := caps.tts clarificationText, transcript := "",
    ai_response := clarificationText, confidence := 0,
    processing_time := t1 - t0, session_id := session_id }


/-- The error outcome built by the top-level `except` handler. -/
def errorResult (caps : Capabilities) (session_id : String) (t0 t1 : ℚ) :
    VoiceResponse :=
  { audio_data := caps.tts errorText, transcript := "",
    ai_response := errorText, confidence := 0,
    processing_time := t1 - t0, session_id := session_id }


/-- The reply text after step 4: the generated text, or the fixed apology
when generation returned `None` or an empty string (`if not ai_response`). -/
def generatedReply (gen : Option String) : String :=
  match gen with
  | none => apologyText
  | some s => if s = "" then apologyText else s


/-- The `try` block of `process_audio_chunk`: stage sequence 1-7.  An
`Except.error` value is an exception propagating out of the block; it
carries the session store as it stands at the raise point, since a Python
exception does not undo the mutations already performed — in particular a
context lazily stored by `_get_session_context` survives a later
retrieve/generate exception. -/
def tryPipeline (caps : Capabilities) (st : PipelineState)
    (audio : AudioData) (session_id : String) (t0 t1 : ℚ) :
    Except (String × PipelineState) (VoiceResponse × PipelineState) :=
  match caps.transcribe audio with
  | .error e => .error (e, st)
  | .ok none => .ok (emptyResult session_id t0 t1, st)
  | .ok (some res) =>
    if res.transcript = "" then .ok (emptyResult session_id t0 t1, st)
    else if res.confidence < st.min_confidence_threshold then
      .ok (clarificationResult caps session_id t0 t1, st)
    else
      let pr := getSessionContext st session_id t0
      let ctx := pr.1
      let st1 := pr.2
      match caps.retrieve res.transcript ctx.user_id ctx.history with
      | .error e => .error (e, st1)
      | .ok rag_context =>
        match caps.generate res.transcript rag_context ctx.history customerServicePrompt with
        | .error e => .error (e, st1)
        | .ok gen =>
          let ai_response := generatedReply gen
          let voice_optimized := optimize_for_voice ai_response
          let audio_response := caps.tts voice_optimized
          let st2 := updateSessionContext st1 session_id res.transcript ai_response t1
          .ok ({ audio_data := audio_response, transcript := res.transcript,
                 ai_response := ai_response, confidence := res.confidence,
                 processing_time := t1 - t0, session_id := session_id }, st2)


/-- Model of `VoicePipeline.process_audio_chunk`: the `try` block with its top-level
exception handler.  The handler synthesizes the fixed apologetic reply
(its `text_to_speech` call cannot raise — the service catches internally)
and performs no further store mutation: the session store stays as the
`try` block left it at the raise point. -/
def process_audio_chunk (caps : Capabilities) (st : PipelineState)
    (audio : AudioData) (session_id : String) (t0 t1 : ℚ) :
    VoiceResponse × PipelineState :=
  match tryPipeline caps st audio session_id t0 t1 with
  | .ok r => r
  | .error e => (errorResult caps session_id t0 t1, e.2)


/-- Oracles whose retrieval call raises, after a confident transcription:
the stage-3 exception fires only after `_get_session_context` has already
stored a fresh context for the session. -/
def retrieveFailCaps : Capabilities :=
  { transcribe := fun _ => .ok (some { transcript := "hi", confidence := 1 }),
    retrieve := fun _ _ _ => .error "retrieval exception",
    generate := fun _ _ _ _ => .ok none,
    tts := fun _ => none }


/-- Pipeline state with a unit confidence threshold, used to witness the
gate with integral confidences. -/
def strictGateState : PipelineState :=
  { min_confidence_threshold := 1, active_sessions := [] }


/-- Oracles for the C2 witness: a confident-sounding transcript of
confidence 0, and retrieval/generation oracles that would raise if they
were ever consulted. -/
def lowConfidenceCaps : Capabilities :=
  { transcribe := fun _ => .ok (some { transcript := "hello", confidence := 0 }),
    retrieve := fun _ _ _ => .error "retrieval must not run",
    generate := fun _ _ _ _ => .error "generation must not run",
    tts := fun _ => some [7] }


/-- The context record stored back by `_update_session_context`. -/
def updatedCtx (ctx : SessionContext) (u a : String) (t1 : ℚ) : SessionContext :=
  let h := ctx.history ++ [ChatMsg.mk "user" u, ChatMsg.mk "assistant" a]
  { ctx with
      history := if h.length > 20 then lastN 20 h else h,
      total_interactions := ctx.total_interactions + 1,
      last_interaction := some t1 }


/-- Oracles for a fully successful pipeline run. -/
def succeedingCaps : Capabilities :=
  { transcribe := fun _ => .ok (some { transcript := "hi", confidence := 1 }),
    retrieve := fun _ _ _ => .ok "kb",
    generate := fun _ _ _ _ => .ok (some "answer"),
    tts := fun _ => some [1] }


/-- Oracles that hear nothing (the transcription call yields no
transcript at all). -/
def silentCaps : Capabilities :=
  { transcribe := fun _ => .ok none,
    retrieve := fun _ _ _ => .ok "",
    generate := fun _ _ _ _ => .ok none,
    tts := fun _ => none }


/-! ## Analytics engine — `services/analytics_service.py` -/


/-- A wall-clock instant: the absolute reading in seconds together with
its calendar decomposition (`datetime.date()` as a day index,
`datetime.hour`). -/
structure Timestamp where
  t : ℚ
  day : Int
  hour : Nat
deriving DecidableEq, Repr


/-- One entry of `AnalyticsService.call_logs` (the fields that
`get_call_analytics` reads, as recorded by `save_call_data`). -/
structure CallRecord where
  session_id : String
  client_id : String
  user_id : Option String
  start_time : Timestamp
  duration : ℚ
  total_interactions : Nat
  status : String
deriving DecidableEq, Repr


/-- One entry of `AnalyticsService.interaction_logs`. -/
structure InteractionRecord where
  session_id : String
  timestamp : String
  user_message : String
  confidence : ℚ
  intent : String
  question_category : String
deriving DecidableEq, Repr


/-- The analytics logs (`__init__` starts both empty). -/
structure AnalyticsState where
  call_logs : List CallRecord
  interaction_logs : List InteractionRecord
deriving DecidableEq, Repr


/-- Positive keywords of `_estimate_user_satisfaction`. -/
def positiveWords : List String := ["thank", "great", "good", "helpful", "perfect"]


/-- Negative keywords of `_estimate_user_satisfaction`. -/
def negativeWords : List String := ["bad", "terrible", "awful", "frustrated", "angry"]


/-- Python `any(word in message for word in words)`. -/
def hasAnyWord (words : List String) (message : String) : Bool :=
  words.any (fun w => strHas message w)


/-- Model of `AnalyticsService._estimate_user_satisfaction`: counts the interaction
texts containing a positive keyword and those containing a negative one;
0.0 for an empty log, the 75.0 neutral baseline when no indicator was
found, otherwise positive over total indicators as a rounded
percentage. -/
def estimate_user_satisfaction (logs : List InteractionRecord) : ℚ :=
  if logs.isEmpty then 0
  else
    let positive := (logs.filter (fun l => hasAnyWord positiveWords (lowerStr l.user_message))).length
    let negative := (logs.filter (fun l => hasAnyWord negativeWords (lowerStr l.user_message))).length
    if positive + negative = 0 then 75
    else round2 ((positive : ℚ) / ((positive : ℚ) + (negative : ℚ)) * 100)


/-- One step of building `hour_distribution`: `defaultdict` increment,
insertion ordered. -/
def bumpHour : List (Nat × Nat) → Nat → List (Nat × Nat)
  | [], h => [(h, 1)]
  | (k, v) :: t, h => if k = h then (k, v + 1) :: t else (k, v) :: bumpHour t h


/-- The `hour_distribution` dict of `get_call_analytics`, keyed by start
hour in first-occurrence order. -/
def hourDistribution (calls : List CallRecord) : List (Nat × Nat) :=
  calls.foldl (fun d c => bumpHour d c.start_time.hour) []


/-- CPython `max(keys, key=get)`: scans left to right and keeps the first
entry, replacing it only on a strictly greater value — ties go to the
earlier entry. -/
def maxPairAux : (Nat × Nat) → List (Nat × Nat) → (Nat × Nat)
  | best, [] => best
  | best, q :: t => maxPairAux (if q.2 > best.2 then q else best) t


/-- Model of `max(hour_distribution, key=hour_distribution.get)` (0 when empty, as
in the guard of the source). -/
def maxKeyByVal : List (Nat × Nat) → Nat
  | [] => 0
  | p :: t => (maxPairAux p t).1


/-- One point of a 30-day trend series. -/
structure TrendPoint where
  date : Int
  value : ℚ
deriving DecidableEq, Repr


/-- Model of `_get_daily_call_trend`: last 30 calendar days, oldest first, missing
day giving 0. -/
def daily_call_trend (calls : List CallRecord) (now : Timestamp) : List TrendPoint :=
  ((List.range 30).map (fun i =>
    ({ date := now.day - i,
       value := ((calls.filter (fun c => c.start_time.day = now.day - i)).length : ℚ) }
     : TrendPoint))).reverse


/-- Model of `_get_duration_trend`. -/
def duration_trend (calls : List CallRecord) (now : Timestamp) : List TrendPoint :=
  ((List.range 30).map (fun i =>
    let ds := (calls.filter (fun c => c.start_time.day = now.day - i)).map CallRecord.duration
    ({ date := now.day - i,
       value := round2 (if ds.isEmpty then 0 else ds.sum / (ds.length : ℚ)) }
     : TrendPoint))).reverse


/-- Model of `_get_interaction_trend`. -/
def interaction_trend (calls : List CallRecord) (now : Timestamp) : List TrendPoint :=
  ((List.range 30).map (fun i =>
    let xs := (calls.filter (fun c => c.start_time.day = now.day - i)).map
      (fun c => (c.total_interactions : ℚ))
    ({ date := now.day - i,
       value := round2 (if xs.isEmpty then 0 else xs.sum / (xs.length : ℚ)) }
     : TrendPoint))).reverse


/-- The `overview` block of the analytics aggregate. -/
structure AnalyticsOverview where
  total_calls : Nat
  calls_today : Nat
  calls_this_week : Nat
  calls_this_month : Nat
  average_duration : ℚ
  average_interactions : ℚ
  success_rate : ℚ
  peak_hour : Nat
deriving DecidableEq, Repr


/-- The `trends` block. -/
structure AnalyticsTrends where
  daily_calls : List TrendPoint
  hourly_distribution : List (Nat × Nat)
  duration_trend : List TrendPoint
  interaction_trend : List TrendPoint
deriving DecidableEq, Repr


/-- The `performance` block. -/
structure AnalyticsPerformance where
  average_response_time : ℚ
  error_rate : ℚ
  user_satisfaction : ℚ
deriving DecidableEq, Repr


/-- The full aggregate returned by `get_call_analytics`. -/
structure CallAnalytics where
  overview : AnalyticsOverview
  trends : AnalyticsTrends
  performance : AnalyticsPerformance
deriving DecidableEq, Repr


/-- Model of `_get_average_response_time`: the hardcoded 1.2-second placeholder. -/
def get_average_response_time : ℚ := 12 / 10


/-- Model of `_get_error_rate`. -/
def get_error_rate (calls : List CallRecord) : ℚ :=
  if calls.isEmpty then 0
  else round2 (((calls.filter (fun c => c.status = "error")).length : ℚ) / (calls.length : ℚ) * 100)


/-- Model of `_get_empty_analytics`: the all-zero aggregate shape. -/
def empty_analytics : CallAnalytics :=
  { overview := { total_calls := 0, calls_today := 0, calls_this_week := 0, calls_this_month := 0, average_duration := 0, average_interactions := 0, success_rate := 0, peak_hour := 0 },
    trends := { daily_calls := [], hourly_distribution := [], duration_trend := [], interaction_trend := [] },
    performance := { average_response_time := 0, error_rate := 0, user_satisfaction := 0 } }


/-- Model of `AnalyticsService.get_call_analytics`, recomputed fresh from the logs
relative to the instant `now`. -/
def get_call_analytics (st : AnalyticsState) (now : Timestamp) : CallAnalytics :=
  if st.call_logs.isEmpty then empty_analytics
  else
    let total_calls := st.call_logs.length
    let today_calls := st.call_logs.filter (fun c => c.start_time.day = now.day)
    let week_calls := st.call_logs.filter (fun c => c.start_time.t ≥ now.t - 7 * 86400)
    let month_calls := st.call_logs.filter (fun c => c.start_time.t ≥ now.t - 30 * 86400)
    let avg_duration := if total_calls > 0 then
      ((st.call_logs.map CallRecord.duration).sum) / (total_calls : ℚ) else 0
    let avg_interactions := if total_calls > 0 then
      ((st.call_logs.map (fun c => (c.total_interactions : ℚ))).sum) / (total_calls : ℚ) else 0
    let successful_calls := (st.call_logs.filter (fun c => c.status = "ended")).length
    let success_rate := if total_calls > 0 then
      (successful_calls : ℚ) / (total_calls : ℚ) * 100 else 0
    let dist := hourDistribution st.call_logs
    let peak_hour := if dist.isEmpty then 0 else maxKeyByVal dist
    { overview := { total_calls := total_calls, calls_today := today_calls.length, calls_this_week := week_calls.length, calls_this_month := month_calls.length, average_duration := round2 avg_duration, average_interactions := round2 avg_interactions, success_rate := round2 success_rate, peak_hour := peak_hour },
      trends := { daily_calls := daily_call_trend st.call_logs now, hourly_distribution := dist, duration_trend := duration_trend st.call_logs now, interaction_trend := interaction_trend st.call_logs now },
      performance := { average_response_time := get_average_response_time, error_rate := get_error_rate st.call_logs, user_satisfaction := estimate_user_satisfaction st.interaction_logs } }


/-- The single call record of the C7 witness. -/
def endedCall42 : CallRecord :=
  { session_id := "s", client_id := "c", user_id := none,
    start_time := { t := 0, day := 0, hour := 9 }, duration := 42,
    total_interactions := 3, status := "ended" }


/-- The single interaction of the C9 witness. -/
def thankfulLog : InteractionRecord :=
  { session_id := "s", timestamp := "t", user_message := "thank you",
    confidence := 1, intent := "general_question", question_category := "other" }


/-- A minimal ended call starting at hour `h`. -/
def callAtHour (h : Nat) (sid : String) : CallRecord :=
  { session_id := sid, client_id := "c", user_id := none,
    start_time := { t := 0, day := 0, hour := h }, duration := 1,
    total_interactions := 1, status := "ended" }


/-- Two calls whose start hours 5 and 3 are tied at one occurrence each. -/
def tieState : AnalyticsState :=
  { call_logs := [callAtHour 5 "s1", callAtHour 3 "s2"], interaction_logs := [] }


/-- Python `dict.get(h, 0)` on the hour distribution. -/
def hourCount (d : List (Nat × Nat)) (h : Nat) : Nat :=
  (alookup d h).getD 0


/-- The keys of the hour distribution. -/
def keysOf (d : List (Nat × Nat)) : List Nat := d.map Prod.fst


/-- Python `max(d.values())`, as folded by the tie-break analysis. -/
def maxVal (l : List (Nat × Nat)) : Nat :=
  l.foldr (fun q m => max q.2 m) 0


/-! ## Theorems -/

theorem lastN_length_le (n : Nat) (l : List α) : (lastN n l).length ≤ n := by
  simp only [lastN, List.length_drop]
  omega


theorem lastN_of_length_le {n : Nat} {l : List α} (h : l.length ≤ n) : lastN n l = l := by
  simp [lastN, Nat.sub_eq_zero_of_le h]


theorem lastN_length (n : Nat) (l : List α) :
    (lastN n l).length = l.length - (l.length - n) := by
  simp [lastN]


/-- Truncating, appending, and truncating again is the same as truncating
the full concatenation: FIFO truncation composes. -/
theorem lastN_append_lastN (n : Nat) (xs ys : List α) :
    lastN n (lastN n xs ++ ys) = lastN n (xs ++ ys) := by
  unfold lastN
  have hle : xs.length - n ≤ xs.length := Nat.sub_le _ _
  rw [← List.drop_append_of_le_length hle, List.drop_drop]
  congr 1
  simp only [List.length_drop, List.length_append]
  omega


theorem alookup_aset_self [DecidableEq κ] (l : List (κ × α)) (k : κ) (v : α) :
    alookup (aset l k v) k = some v := by
  induction l with
  | nil => simp [aset, alookup]
  | cons p t ih =>
    by_cases h : p.1 = k
    · simp [aset, h, alookup]
    · simp [aset, h, alookup, ih]


theorem alookup_aset_other [DecidableEq κ] (l : List (κ × α)) {k k' : κ} (v : α)
    (h : k ≠ k') : alookup (aset l k v) k' = alookup l k' := by
  induction l with
  | nil => simp [aset, alookup, h]
  | cons p t ih =>
    by_cases hp : p.1 = k
    · simp [aset, hp, alookup, h]
    · simp only [aset, hp, if_false]
      by_cases hp' : p.1 = k'
      · simp [alookup, hp']
      · simp [alookup, hp', ih]


theorem msgsOf_cons (x : Exchange) (xs : List Exchange) :
    msgsOf (x :: xs) = x.msgs ++ msgsOf xs := rfl


theorem msgsOf_length (xs : List Exchange) : (msgsOf xs).length = 2 * xs.length := by
  induction xs with
  | nil => rfl
  | cons x t ih => simp [msgsOf_cons, Exchange.msgs, ih]; omega


/-- Model of `add_interaction` always leaves the history equal to the FIFO
truncation of everything appended so far. -/
theorem add_interaction_history (s : ConversationSession)
    (u a : String) (c : ℚ) (t : String) :
    (s.add_interaction u a c t).conversation_history =
      lastN 50 (s.conversation_history ++
        [⟨"user", u, t, some c⟩, ⟨"assistant", a, t, none⟩]) := by
  unfold ConversationSession.add_interaction
  dsimp only
  split
  · rfl
  · next hlen => exact (lastN_of_length_le (Nat.le_of_not_lt hlen)).symm


theorem add_interaction_counter (s : ConversationSession)
    (u a : String) (c : ℚ) (t : String) :
    (s.add_interaction u a c t).total_interactions = s.total_interactions + 1 := by
  unfold ConversationSession.add_interaction
  dsimp only
  split <;> rfl


theorem add_interaction_length_le (s : ConversationSession)
    (u a : String) (c : ℚ) (t : String) :
    (s.add_interaction u a c t).conversation_history.length ≤ 50 := by
  rw [add_interaction_history s u a c t]
  exact lastN_length_le _ _


/-- Folding a list of exchanges into a session keeps the history equal to
the FIFO truncation of the original history followed by every appended
message, in chronological order. -/
theorem addAll_history (xs : List Exchange) :
    ∀ (s : ConversationSession), s.conversation_history.length ≤ 50 →
      (addAll s xs).conversation_history =
        lastN 50 (s.conversation_history ++ msgsOf xs) := by
  induction xs with
  | nil =>
    intro s h
    simpa [addAll, msgsOf] using (lastN_of_length_le h).symm
  | cons x t ih =>
    intro s h
    have hstep : (s.add_interaction x.user x.ai x.confidence x.t).conversation_history =
        lastN 50 (s.conversation_history ++ x.msgs) :=
      add_interaction_history s _ _ _ _
    have hle : (s.add_interaction x.user x.ai x.confidence x.t).conversation_history.length ≤ 50 :=
      add_interaction_length_le s _ _ _ _
    have : addAll s (x :: t) = addAll (s.add_interaction x.user x.ai x.confidence x.t) t := rfl
    rw [this, ih _ hle, hstep, lastN_append_lastN, msgsOf_cons, List.append_assoc]


theorem addAll_counter (xs : List Exchange) :
    ∀ (s : ConversationSession),
      (addAll s xs).total_interactions = s.total_interactions + xs.length := by
  induction xs with
  | nil => intro s; simp [addAll]
  | cons x t ih =>
    intro s
    have : addAll s (x :: t) = addAll (s.add_interaction x.user x.ai x.confidence x.t) t := rfl
    rw [this, ih, add_interaction_counter]
    simp; omega


/-- C3: for every session whose window respects the bound, and every
sequence of exchanges added to it, the window length never exceeds 50 and
the window is exactly the most recent messages in chronological order
(FIFO truncation). -/
theorem C3_window_fifo (s : ConversationSession) (xs : List Exchange)
    (h : s.conversation_history.length ≤ 50) :
    (addAll s xs).conversation_history =
      lastN 50 (s.conversation_history ++ msgsOf xs) ∧
    (addAll s xs).conversation_history.length ≤ 50 := by
  refine ⟨addAll_history xs s h, ?_⟩
  rw [addAll_history xs s h]
  exact lastN_length_le _ _


/-- Witness for C3 at a concrete input: three exchanges on a fresh session. -/
theorem C3_window_fifo_witness :
    (addAll (freshSession "s" "c" none 0) (List.replicate 3 ⟨"u", "a", 1, "t"⟩)).conversation_history =
      lastN 50 ((freshSession "s" "c" none 0).conversation_history ++
        msgsOf (List.replicate 3 ⟨"u", "a", 1, "t"⟩)) ∧
    (addAll (freshSession "s" "c" none 0) (List.replicate 3 ⟨"u", "a", 1, "t"⟩)).conversation_history.length ≤ 50 :=
  C3_window_fifo (freshSession "s" "c" none 0) (List.replicate 3 ⟨"u", "a", 1, "t"⟩)
    (by decide)


/-- C4 counterexample: after 26 completed exchanges the counter is 26 but
the context window holds 50 messages, so the claimed
"counter ≥ window length once truncation begins" fails (truncation has
begun: 26 exchanges contributed 52 messages, two were evicted). -/
theorem C4_counter_vs_window_counterexample :
    sessionAfter26.total_interactions = 26 ∧
    sessionAfter26.conversation_history.length = 50 ∧
    ¬ (sessionAfter26.total_interactions ≥ sessionAfter26.conversation_history.length) := by
  set_option maxRecDepth 10000 in refine ⟨by decide, by decide, by decide⟩


/-- C4 amended: the counter equals the number of completed exchanges added,
regardless of window truncation; since every exchange contributes two
messages to the window, once truncation begins twice the counter is at
least (indeed exceeds) the window length.  (The original claim compared
the exchange counter directly with the message-count window length.) -/
theorem C4_counter_amended (s : ConversationSession) (xs : List Exchange)
    (id client_id : String) (user_id : Option String) (t : ℚ) :
    (addAll s xs).total_interactions = s.total_interactions + xs.length ∧
    2 * (addAll (freshSession id client_id user_id t) xs).total_interactions ≥
      (addAll (freshSession id client_id user_id t) xs).conversation_history.length := by
  refine ⟨addAll_counter xs s, ?_⟩
  have hh := addAll_history xs (freshSession id client_id user_id t) (by simp [freshSession])
  have hc := addAll_counter xs (freshSession id client_id user_id t)
  rw [hh, hc]
  simp only [freshSession, List.nil_append, lastN_length, msgsOf_length]
  omega


/-- C6 counterexample: with the active map at the ceiling and every active
session younger than the one-hour cutoff, `create_session` ends no session
(the history stays empty, both old client ids stay active) and still
admits the new one, leaving the active count strictly above the ceiling;
no `CapacityExceeded` failure exists anywhere on this path. -/
theorem C6_capacity_counterexample :
    fullManagerTwo.active_sessions.length ≥ fullManagerTwo.max_active_sessions ∧
    (fullManagerTwo.create_session "c" none "sc" 10).2.session_history = [] ∧
    (fullManagerTwo.create_session "c" none "sc" 10).2.active_sessions.map Prod.fst = ["a", "b", "c"] ∧
    (fullManagerTwo.create_session "c" none "sc" 10).2.active_sessions.length >
      fullManagerTwo.max_active_sessions := by
  have hyoung : ∀ t : ℚ, sessionIsOld 10 (freshSession "s" "c" none 0) = false := by
    intro t
    simp [sessionIsOld, freshSession]
    norm_num
  refine ⟨by decide, ?_, ?_, ?_⟩ <;>
    · simp [ConversationManager.create_session, ConversationManager.cleanup_old_sessions,
        fullManagerTwo, sessionIsOld, freshSession, aset, newSessionFor]
      norm_num
      try decide


theorem alookup_append_notMem [DecidableEq κ] (pre rest : List (κ × α)) (k : κ)
    (h : k ∉ pre.map Prod.fst) : alookup (pre ++ rest) k = alookup rest k := by
  induction pre with
  | nil => rfl
  | cons p t ih =>
    simp only [List.map_cons, List.mem_cons, not_or] at h
    simp only [List.cons_append, alookup]
    rw [if_neg (fun he => h.1 he.symm)]
    exact ih h.2


theorem removeKey_notMem [DecidableEq κ] (l : List (κ × α)) (k : κ)
    (h : k ∉ l.map Prod.fst) : removeKey l k = l := by
  induction l with
  | nil => rfl
  | cons p t ih =>
    simp only [List.map_cons, List.mem_cons, not_or] at h
    simp only [removeKey]
    rw [if_neg (fun he => h.1 he.symm)]
    rw [ih h.2]


theorem removeKey_append [DecidableEq κ] (l₁ l₂ : List (κ × α)) (k : κ) :
    removeKey (l₁ ++ l₂) k = removeKey l₁ k ++ removeKey l₂ k := by
  induction l₁ with
  | nil => rfl
  | cons p t ih =>
    by_cases h : p.1 = k <;> simp [removeKey, h, ih]


/-- Running the ending loop over the ids of the stale entries of the tail
`l` of the active map (the prefix `pre` holding no stale entry processed by
the loop) removes exactly those entries and appends their ended versions to
the history, in order. -/
theorem runEnds_filter_spec (now : ℚ) (l : List (String × ConversationSession)) :
    ∀ (pre : List (String × ConversationSession)) (hist : List ConversationSession) (mx : Nat),
      ((pre ++ l).map Prod.fst).Nodup →
      runEnds ⟨pre ++ l, hist, mx⟩ ((l.filter (fun p => sessionIsOld now p.2)).map Prod.fst) now =
        ⟨pre ++ l.filter (fun p => ! sessionIsOld now p.2),
         hist ++ (l.filter (fun p => sessionIsOld now p.2)).map (fun p => endedVersion p.2 now),
         mx⟩ := by
  induction l with
  | nil => intro pre hist mx _; simp [runEnds]
  | cons p t ih =>
    intro pre hist mx h
    have hmap : ((pre ++ p :: t).map Prod.fst) = pre.map Prod.fst ++ p.1 :: t.map Prod.fst := by
      simp
    rw [hmap] at h
    have hpre : p.1 ∉ pre.map Prod.fst := by
      intro hmem
      exact (List.disjoint_of_nodup_append h) hmem (by simp)
    have ht : p.1 ∉ t.map Prod.fst := by
      have := (List.Nodup.of_append_right h)
      simp only [List.nodup_cons] at this
      exact this.1
    by_cases hp : sessionIsOld now p.2
    · -- the head entry is stale: it is ended first
      have hfilter : (p :: t).filter (fun q => sessionIsOld now q.2) =
          p :: t.filter (fun q => sessionIsOld now q.2) := by
        simp [List.filter_cons, hp]
      have hfilter' : (p :: t).filter (fun q => ! sessionIsOld now q.2) =
          t.filter (fun q => ! sessionIsOld now q.2) := by
        simp [List.filter_cons, hp]
      rw [hfilter, hfilter', List.map_cons]
      show runEnds _ (p.1 :: _) now = _
      have hlook : alookup (pre ++ p :: t) p.1 = some p.2 := by
        rw [alookup_append_notMem _ _ _ hpre]
        simp [alookup]
      have hrem : removeKey (pre ++ p :: t) p.1 = pre ++ t := by
        rw [removeKey_append, removeKey_notMem _ _ hpre]
        simp [removeKey, removeKey_notMem _ _ ht]
      have hstep : runEnds ⟨pre ++ p :: t, hist, mx⟩
            (p.1 :: (t.filter (fun q => sessionIsOld now q.2)).map Prod.fst) now =
          runEnds ⟨pre ++ t, hist ++ [endedVersion p.2 now], mx⟩
            ((t.filter (fun q => sessionIsOld now q.2)).map Prod.fst) now := by
        simp [runEnds, ConversationManager.end_session, hlook, hrem]
      rw [hstep]
      have hnd : ((pre ++ t).map Prod.fst).Nodup := by
        have h1 : (pre.map Prod.fst).Nodup := List.Nodup.of_append_left h
        have h2 : (t.map Prod.fst).Nodup := by
          have := List.Nodup.of_append_right h
          simp only [List.nodup_cons] at this
          exact this.2
        have hdisj : (pre.map Prod.fst).Disjoint (p.1 :: t.map Prod.fst) :=
          List.disjoint_of_nodup_append h
        rw [List.map_append]
        exact List.Nodup.append h1 h2 (fun a ha hb => hdisj ha (by simp [hb]))
      rw [ih pre (hist ++ [endedVersion p.2 now]) mx hnd]
      simp
    · -- the head entry is young: it survives, untouched by the loop
      have hfilter : (p :: t).filter (fun q => sessionIsOld now q.2) =
          t.filter (fun q => sessionIsOld now q.2) := by
        simp [List.filter_cons, hp]
      have hfilter' : (p :: t).filter (fun q => ! sessionIsOld now q.2) =
          p :: t.filter (fun q => ! sessionIsOld now q.2) := by
        simp [List.filter_cons, hp]
      rw [hfilter, hfilter']
      have hassoc : pre ++ p :: t = (pre ++ [p]) ++ t := by simp
      have hnd2 : (((pre ++ [p]) ++ t).map Prod.fst).Nodup := by
        rw [← hassoc, hmap]; exact h
      rw [hassoc]
      rw [ih (pre ++ [p]) hist mx hnd2]
      simp


/-- Characterization of `_cleanup_old_sessions`: it ends exactly the
active sessions older than one hour (necessarily the least recently
started ones), moving their ended versions to the history in map order,
and keeps every younger session. -/
theorem cleanup_old_sessions_spec (m : ConversationManager) (now : ℚ)
    (h : (m.active_sessions.map Prod.fst).Nodup) :
    m.cleanup_old_sessions now =
      { active_sessions := m.active_sessions.filter (fun p => ! sessionIsOld now p.2),
        session_history := m.session_history ++
          (m.active_sessions.filter (fun p => sessionIsOld now p.2)).map
            (fun p => endedVersion p.2 now),
        max_active_sessions := m.max_active_sessions } := by
  have := runEnds_filter_spec now m.active_sessions [] m.session_history
    m.max_active_sessions (by simpa using h)
  simpa [runEnds, ConversationManager.cleanup_old_sessions] using this


/-- C6 amended: `create_session` always admits the new session.  Below the
ceiling it touches nothing else; at or above the ceiling it first ends
exactly the active sessions older than one hour (the least recently
started ones), moving them to history, and then admits the new session
unconditionally — it never fails with a `CapacityExceeded` error, so the
ceiling can be exceeded when no active session is old enough to evict.
(The original claim required eviction to free capacity before admission,
with a `CapacityExceeded` failure otherwise.) -/
theorem C6_capacity_amended (m : ConversationManager) (client_id : String)
    (user_id : Option String) (session_id : String) (now : ℚ)
    (h : (m.active_sessions.map Prod.fst).Nodup) :
    alookup (m.create_session client_id user_id session_id now).2.active_sessions client_id =
      some (newSessionFor client_id user_id session_id now) ∧
    (m.active_sessions.length < m.max_active_sessions →
      (m.create_session client_id user_id session_id now).2.active_sessions =
        aset m.active_sessions client_id (newSessionFor client_id user_id session_id now) ∧
      (m.create_session client_id user_id session_id now).2.session_history =
        m.session_history) ∧
    (m.active_sessions.length ≥ m.max_active_sessions →
      (m.create_session client_id user_id session_id now).2.active_sessions =
        aset (m.active_sessions.filter (fun p => ! sessionIsOld now p.2)) client_id
          (newSessionFor client_id user_id session_id now) ∧
      (m.create_session client_id user_id session_id now).2.session_history =
        m.session_history ++
          (m.active_sessions.filter (fun p => sessionIsOld now p.2)).map
            (fun p => endedVersion p.2 now)) := by
  by_cases hcap : m.active_sessions.length ≥ m.max_active_sessions
  · have hclean := cleanup_old_sessions_spec m now h
    refine ⟨?_, fun hlt => absurd hcap (by omega), fun _ => ?_⟩
    · simp [ConversationManager.create_session, if_pos hcap, hclean, alookup_aset_self]
    · constructor <;> simp [ConversationManager.create_session, if_pos hcap, hclean]
  · refine ⟨?_, fun _ => ?_, fun hge => absurd hge hcap⟩
    · simp [ConversationManager.create_session, if_neg hcap, alookup_aset_self]
    · constructor <;> simp [ConversationManager.create_session, if_neg hcap]


theorem C6_capacity_amended_witness :
    alookup (staleFreshManager.create_session "c" none "sc" 4000).2.active_sessions "c" =
      some (newSessionFor "c" none "sc" 4000) ∧
    (staleFreshManager.active_sessions.length < staleFreshManager.max_active_sessions →
      (staleFreshManager.create_session "c" none "sc" 4000).2.active_sessions =
        aset staleFreshManager.active_sessions "c" (newSessionFor "c" none "sc" 4000) ∧
      (staleFreshManager.create_session "c" none "sc" 4000).2.session_history =
        staleFreshManager.session_history) ∧
    (staleFreshManager.active_sessions.length ≥ staleFreshManager.max_active_sessions →
      (staleFreshManager.create_session "c" none "sc" 4000).2.active_sessions =
        aset (staleFreshManager.active_sessions.filter (fun p => ! sessionIsOld 4000 p.2)) "c"
          (newSessionFor "c" none "sc" 4000) ∧
      (staleFreshManager.create_session "c" none "sc" 4000).2.session_history =
        staleFreshManager.session_history ++
          (staleFreshManager.active_sessions.filter (fun p => sessionIsOld 4000 p.2)).map
            (fun p => endedVersion p.2 4000)) :=
  C6_capacity_amended staleFreshManager "c" none "sc" 4000 (by decide)


/-- C1: for every session id and audio input, if any stage inside the
`try` block raises an unexpected exception, `process_audio_chunk` does not
propagate it: it returns the single error outcome — empty transcript, the
fixed apologetic reply (synthesized if possible), confidence 0, the
elapsed processing time recorded — together with the session store as the
`try` block left it at the raise point, and the caller never observes a
raised failure (the return type of the embedding is not `Except`: the
handler itself cannot raise, since the synthesis service catches
internally). -/
theorem C1_error_outcome_total (caps : Capabilities) (st : PipelineState)
    (audio : AudioData) (session_id : String) (t0 t1 : ℚ)
    (e : String) (raiseState : PipelineState)
    (h : tryPipeline caps st audio session_id t0 t1 = .error (e, raiseState)) :
    process_audio_chunk caps st audio session_id t0 t1 =
      (errorResult caps session_id t0 t1, raiseState) ∧
    (process_audio_chunk caps st audio session_id t0 t1).1.transcript = "" ∧
    (process_audio_chunk caps st audio session_id t0 t1).1.ai_response = errorText ∧
    (process_audio_chunk caps st audio session_id t0 t1).1.confidence = 0 ∧
    (process_audio_chunk caps st audio session_id t0 t1).1.processing_time = t1 - t0 := by
  unfold process_audio_chunk
  rw [h]
  exact ⟨rfl, rfl, rfl, rfl, rfl⟩


/-- Witness for C1: a concrete invocation against an unknown session id
whose retrieval stage raises; the store carried through the handler holds
the context that `_get_session_context` stored before the raise. -/
theorem C1_error_outcome_total_witness :
    tryPipeline retrieveFailCaps strictGateState [] "s" 0 2 =
      .error ("retrieval exception",
        { min_confidence_threshold := 1, active_sessions := [("s", freshContext 0)] }) ∧
    (process_audio_chunk retrieveFailCaps strictGateState [] "s" 0 2 =
      (errorResult retrieveFailCaps "s" 0 2,
        { min_confidence_threshold := 1, active_sessions := [("s", freshContext 0)] }) ∧
    (process_audio_chunk retrieveFailCaps strictGateState [] "s" 0 2).1.transcript = "" ∧
    (process_audio_chunk retrieveFailCaps strictGateState [] "s" 0 2).1.ai_response = errorText ∧
    (process_audio_chunk retrieveFailCaps strictGateState [] "s" 0 2).1.confidence = 0 ∧
    (process_audio_chunk retrieveFailCaps strictGateState [] "s" 0 2).1.processing_time = 2 - 0) :=
  ⟨rfl, C1_error_outcome_total retrieveFailCaps strictGateState [] "s" 0 2
    "retrieval exception"
    { min_confidence_threshold := 1, active_sessions := [("s", freshContext 0)] } rfl⟩


/-- C2: whenever transcription yields a (non-empty) transcript whose
confidence is strictly below the configured threshold (0.7 in the initial
configuration), the call short-circuits to the clarification outcome: the
reply text is exactly the fixed clarification text, confidence 0, empty
transcript, delivered as a normal (`Except.ok`) result, and the retrieval
and generation capabilities are not invoked — the outcome is unchanged
under arbitrary replacement of those two oracles. -/
theorem C2_confidence_gate (caps : Capabilities) (st : PipelineState)
    (audio : AudioData) (session_id : String) (t0 t1 : ℚ) (res : TranscriptionResult)
    (htr : caps.transcribe audio = .ok (some res))
    (hne : res.transcript ≠ "")
    (hlow : res.confidence < st.min_confidence_threshold) :
    tryPipeline caps st audio session_id t0 t1 =
      .ok (clarificationResult caps session_id t0 t1, st) ∧
    process_audio_chunk caps st audio session_id t0 t1 =
      (clarificationResult caps session_id t0 t1, st) ∧
    (process_audio_chunk caps st audio session_id t0 t1).1.ai_response = clarificationText ∧
    (process_audio_chunk caps st audio session_id t0 t1).1.confidence = 0 ∧
    (process_audio_chunk caps st audio session_id t0 t1).1.transcript = "" ∧
    initialPipelineState.min_confidence_threshold = 7/10 ∧
    (∀ caps' : Capabilities, caps'.transcribe = caps.transcribe → caps'.tts = caps.tts →
      process_audio_chunk caps' st audio session_id t0 t1 =
        process_audio_chunk caps st audio session_id t0 t1) := by
  have key : ∀ c : Capabilities, c.transcribe = caps.transcribe → c.tts = caps.tts →
      tryPipeline c st audio session_id t0 t1 =
        .ok (clarificationResult caps session_id t0 t1, st) := by
    intro c hct htts
    unfold tryPipeline
    rw [hct, htr]
    simp [hne, hlow, clarificationResult, htts]
  have hmain := key caps rfl rfl
  have hproc : ∀ c : Capabilities, c.transcribe = caps.transcribe → c.tts = caps.tts →
      process_audio_chunk c st audio session_id t0 t1 =
        (clarificationResult caps session_id t0 t1, st) := by
    intro c hct htts
    unfold process_audio_chunk
    rw [key c hct htts]
  refine ⟨hmain, hproc caps rfl rfl, ?_, ?_, ?_, rfl, ?_⟩
  · rw [hproc caps rfl rfl]; rfl
  · rw [hproc caps rfl rfl]; rfl
  · rw [hproc caps rfl rfl]; rfl
  · intro c hct htts
    rw [hproc c hct htts, hproc caps rfl rfl]


/-- Witness for C2 at a concrete low-confidence invocation. -/
theorem C2_confidence_gate_witness :
    lowConfidenceCaps.transcribe [] = .ok (some { transcript := "hello", confidence := 0 }) ∧
    ("hello" : String) ≠ "" ∧
    ({ transcript := "hello", confidence := 0 } : TranscriptionResult).confidence <
      strictGateState.min_confidence_threshold ∧
    tryPipeline lowConfidenceCaps strictGateState [] "s" 0 2 =
      .ok (clarificationResult lowConfidenceCaps "s" 0 2, strictGateState) ∧
    process_audio_chunk lowConfidenceCaps strictGateState [] "s" 0 2 =
      (clarificationResult lowConfidenceCaps "s" 0 2, strictGateState) ∧
    (process_audio_chunk lowConfidenceCaps strictGateState [] "s" 0 2).1.ai_response =
      clarificationText :=
  have h := C2_confidence_gate lowConfidenceCaps strictGateState [] "s" 0 2
    { transcript := "hello", confidence := 0 } rfl (by decide) (by decide)
  ⟨rfl, by decide, by decide, h.1, h.2.1, h.2.2.1⟩


theorem getSessionContext_lookup (st : PipelineState) (session_id : String) (t : ℚ) :
    alookup (getSessionContext st session_id t).2.active_sessions session_id =
      some (getSessionContext st session_id t).1 := by
  unfold getSessionContext
  cases h : alookup st.active_sessions session_id with
  | some ctx => simpa using h
  | none => simp [alookup_aset_self]


theorem updateSessionContext_eval (st1 : PipelineState)
    (session_id u a : String) (t1 : ℚ) (ctx : SessionContext)
    (hl : alookup st1.active_sessions session_id = some ctx) :
    updateSessionContext st1 session_id u a t1 =
      { st1 with active_sessions := aset st1.active_sessions session_id (updatedCtx ctx u a t1) } := by
  unfold updateSessionContext getSessionContext updatedCtx
  rw [hl]


/-- Evaluation of the full success path of `process_audio_chunk` under
explicit stage outcomes. -/
theorem process_success_eval (caps : Capabilities) (st : PipelineState)
    (audio : AudioData) (session_id : String) (t0 t1 : ℚ)
    (res : TranscriptionResult) (rag_context : String) (gen : Option String)
    (htr : caps.transcribe audio = .ok (some res))
    (hne : res.transcript ≠ "")
    (hconf : ¬ res.confidence < st.min_confidence_threshold)
    (hrag : caps.retrieve res.transcript (getSessionContext st session_id t0).1.user_id
      (getSessionContext st session_id t0).1.history = .ok rag_context)
    (hgen : caps.generate res.transcript rag_context
      (getSessionContext st session_id t0).1.history customerServicePrompt = .ok gen) :
    process_audio_chunk caps st audio session_id t0 t1 =
      ({ audio_data := caps.tts (optimize_for_voice (generatedReply gen)),
         transcript := res.transcript, ai_response := generatedReply gen,
         confidence := res.confidence, processing_time := t1 - t0,
         session_id := session_id },
       updateSessionContext (getSessionContext st session_id t0).2 session_id
         res.transcript (generatedReply gen) t1) := by
  unfold process_audio_chunk tryPipeline
  rw [htr]
  simp only [hne, hconf, if_neg, if_false, ite_false]
  rw [hrag]
  dsimp only
  rw [hgen]


theorem lastN_append_keeps_tail (n : Nat) (h l : List α) (hle : l.length ≤ n) :
    ∃ pre, lastN n (h ++ l) = pre ++ l := by
  refine ⟨h.drop ((h ++ l).length - n), ?_⟩
  unfold lastN
  rw [List.drop_append_of_le_length (by simp; omega)]


/-- C5: on every successful (non-short-circuited, non-error) call, the
(user text, reply text) exchange is appended to the context
window — the stored window ends with exactly those two messages — and the
window of the session, and the interaction counter of that session is incremented by one. -/
theorem C5_session_update (caps : Capabilities) (st : PipelineState)
    (audio : AudioData) (session_id : String) (t0 t1 : ℚ)
    (res : TranscriptionResult) (rag_context : String) (gen : Option String)
    (htr : caps.transcribe audio = .ok (some res))
    (hne : res.transcript ≠ "")
    (hconf : ¬ res.confidence < st.min_confidence_threshold)
    (hrag : caps.retrieve res.transcript (getSessionContext st session_id t0).1.user_id
      (getSessionContext st session_id t0).1.history = .ok rag_context)
    (hgen : caps.generate res.transcript rag_context
      (getSessionContext st session_id t0).1.history customerServicePrompt = .ok gen) :
    alookup (process_audio_chunk caps st audio session_id t0 t1).2.active_sessions session_id =
      some (updatedCtx (getSessionContext st session_id t0).1 res.transcript (generatedReply gen) t1) ∧
    (updatedCtx (getSessionContext st session_id t0).1 res.transcript
        (generatedReply gen) t1).total_interactions =
      (getSessionContext st session_id t0).1.total_interactions + 1 ∧
    (∃ pre, (updatedCtx (getSessionContext st session_id t0).1 res.transcript
        (generatedReply gen) t1).history =
      pre ++ [⟨"user", res.transcript⟩, ⟨"assistant", generatedReply gen⟩]) := by
  have heval := process_success_eval caps st audio session_id t0 t1 res rag_context gen
    htr hne hconf hrag hgen
  refine ⟨?_, rfl, ?_⟩
  · rw [heval]
    dsimp only
    rw [updateSessionContext_eval _ _ _ _ _ _ (getSessionContext_lookup st session_id t0)]
    exact alookup_aset_self _ _ _
  · unfold updatedCtx
    dsimp only
    split
    · exact lastN_append_keeps_tail 20 _ _ (by simp)
    · exact ⟨(getSessionContext st session_id t0).1.history, rfl⟩


/-- Witness for C5 at a concrete successful invocation against an empty
session store. -/
theorem C5_session_update_witness :
    succeedingCaps.transcribe [] = .ok (some { transcript := "hi", confidence := 1 }) ∧
    ¬ ({ transcript := "hi", confidence := 1 } : TranscriptionResult).confidence <
      strictGateState.min_confidence_threshold ∧
    alookup (process_audio_chunk succeedingCaps strictGateState [] "s" 0 3).2.active_sessions "s" =
      some (updatedCtx (getSessionContext strictGateState "s" 0).1 "hi"
        (generatedReply (some "answer")) 3) ∧
    (updatedCtx (getSessionContext strictGateState "s" 0).1 "hi"
        (generatedReply (some "answer")) 3).total_interactions =
      (getSessionContext strictGateState "s" 0).1.total_interactions + 1 :=
  have h := C5_session_update succeedingCaps strictGateState [] "s" 0 3
    { transcript := "hi", confidence := 1 } "kb" (some "answer")
    rfl (by decide) (by decide) rfl rfl
  ⟨rfl, by decide, h.1, h.2.1⟩


/-- Every call yields a result tagged with the requested session id, on
every control path (empty, clarification, success, error). -/
theorem process_session_id_total (caps : Capabilities) (st : PipelineState)
    (audio : AudioData) (session_id : String) (t0 t1 : ℚ) :
    (process_audio_chunk caps st audio session_id t0 t1).1.session_id = session_id := by
  unfold process_audio_chunk tryPipeline
  cases htr : caps.transcribe audio with
  | error e => rfl
  | ok o =>
    cases o with
    | none => rfl
    | some res =>
      dsimp only
      by_cases h1 : res.transcript = ""
      · rw [if_pos h1]; rfl
      · rw [if_neg h1]
        by_cases h2 : res.confidence < st.min_confidence_threshold
        · rw [if_pos h2]; rfl
        · rw [if_neg h2]
          cases caps.retrieve res.transcript (getSessionContext st session_id t0).1.user_id
              (getSessionContext st session_id t0).1.history with
          | error e => rfl
          | ok rc =>
            dsimp only
            cases caps.generate res.transcript rc
                (getSessionContext st session_id t0).1.history customerServicePrompt with
            | error e => rfl
            | ok g => rfl


/-- C10: `process_audio_chunk` never rejects an unknown session id — the
session store of the pipeline itself lazily creates a fresh context (empty
history, no user id, zero interactions) on first access, stores it under
the requested id, and the call completes normally, returning a result for
that session on every control path. -/
theorem C10_unknown_session (caps : Capabilities) (st : PipelineState)
    (audio : AudioData) (session_id : String) (t0 t1 : ℚ)
    (hnew : alookup st.active_sessions session_id = none) :
    (getSessionContext st session_id t0).1 = freshContext t0 ∧
    (freshContext t0).history = [] ∧
    (freshContext t0).user_id = none ∧
    (freshContext t0).total_interactions = 0 ∧
    alookup (getSessionContext st session_id t0).2.active_sessions session_id =
      some (freshContext t0) ∧
    (process_audio_chunk caps st audio session_id t0 t1).1.session_id = session_id := by
  refine ⟨?_, rfl, rfl, rfl, ?_, process_session_id_total caps st audio session_id t0 t1⟩
  · unfold getSessionContext
    rw [hnew]
  · unfold getSessionContext
    rw [hnew]
    exact alookup_aset_self _ _ _


/-- Witness for C10 at a session id that was never created. -/
theorem C10_unknown_session_witness :
    alookup initialPipelineState.active_sessions "ghost" = none ∧
    ((getSessionContext initialPipelineState "ghost" 0).1 = freshContext 0 ∧
    (freshContext 0).history = [] ∧
    (freshContext 0).user_id = none ∧
    (freshContext 0).total_interactions = 0 ∧
    alookup (getSessionContext initialPipelineState "ghost" 0).2.active_sessions "ghost" =
      some (freshContext 0) ∧
    (process_audio_chunk silentCaps initialPipelineState [] "ghost" 0 1).1.session_id = "ghost") :=
  ⟨rfl, C10_unknown_session silentCaps initialPipelineState [] "ghost" 0 1 rfl⟩


/-- C7: with no recorded calls `get_call_analytics` returns the all-zero
aggregate shape; with exactly one recorded call of duration 42 and status
"ended" it reports success rate 100.0 and average duration 42. -/
theorem C7_analytics_zero_and_one (st st' : AnalyticsState) (now now' : Timestamp)
    (c : CallRecord) (hempty : st.call_logs = []) (hone : st'.call_logs = [c])
    (hdur : c.duration = 42) (hstatus : c.status = "ended") :
    get_call_analytics st now = empty_analytics ∧
    (get_call_analytics st' now').overview.success_rate = 100 ∧
    (get_call_analytics st' now').overview.average_duration = 42 := by
  refine ⟨?_, ?_, ?_⟩
  · unfold get_call_analytics
    rw [hempty]
    rfl
  · unfold get_call_analytics
    rw [hone]
    simp only [List.isEmpty_cons, Bool.false_eq_true, if_false]
    simp [hstatus]
    norm_num [round2, qround, Int.fdiv]
  · unfold get_call_analytics
    rw [hone]
    simp only [List.isEmpty_cons, Bool.false_eq_true, if_false]
    simp [hdur]
    norm_num [round2, qround, Int.fdiv]


/-- Witness for C7 at concrete analytics states. -/
theorem C7_analytics_zero_and_one_witness :
    get_call_analytics { call_logs := [], interaction_logs := [] } { t := 0, day := 0, hour := 0 } =
      empty_analytics ∧
    (get_call_analytics { call_logs := [endedCall42], interaction_logs := [] }
      { t := 0, day := 0, hour := 0 }).overview.success_rate = 100 ∧
    (get_call_analytics { call_logs := [endedCall42], interaction_logs := [] }
      { t := 0, day := 0, hour := 0 }).overview.average_duration = 42 :=
  C7_analytics_zero_and_one { call_logs := [], interaction_logs := [] }
    { call_logs := [endedCall42], interaction_logs := [] }
    { t := 0, day := 0, hour := 0 } { t := 0, day := 0, hour := 0 } endedCall42
    rfl rfl rfl rfl


/-- C9 counterexample: with zero recorded interaction texts no positive or
negative keyword hit is found, yet the estimate is 0.0, not the claimed
75% neutral baseline (the source returns early on an empty log). -/
theorem C9_satisfaction_counterexample :
    estimate_user_satisfaction [] = 0 ∧ (0 : ℚ) ≠ 75 :=
  ⟨rfl, by norm_num⟩


/-- C9 amended: over a non-empty interaction log, the estimate counts the
texts containing a positive keyword against those containing a negative
one; no hit at all (equivalently, zero indicator count) gives the fixed
75% baseline, and otherwise the estimate is positive over total
indicators, as a percentage rounded to two decimals.  (The original claim
extended the baseline to the zero-interaction case, where the code
returns 0.) -/
theorem C9_satisfaction_amended (logs : List InteractionRecord) (hne : logs ≠ []) :
    ((logs.countP (fun l => hasAnyWord positiveWords (lowerStr l.user_message)) +
        logs.countP (fun l => hasAnyWord negativeWords (lowerStr l.user_message)) = 0) ↔
      (∀ l ∈ logs, hasAnyWord positiveWords (lowerStr l.user_message) = false ∧
        hasAnyWord negativeWords (lowerStr l.user_message) = false)) ∧
    ((logs.countP (fun l => hasAnyWord positiveWords (lowerStr l.user_message)) +
        logs.countP (fun l => hasAnyWord negativeWords (lowerStr l.user_message)) = 0) →
      estimate_user_satisfaction logs = 75) ∧
    ((logs.countP (fun l => hasAnyWord positiveWords (lowerStr l.user_message)) +
        logs.countP (fun l => hasAnyWord negativeWords (lowerStr l.user_message)) ≠ 0) →
      estimate_user_satisfaction logs =
        round2 (((logs.countP (fun l => hasAnyWord positiveWords (lowerStr l.user_message)) : ℚ)) /
          ((logs.countP (fun l => hasAnyWord positiveWords (lowerStr l.user_message)) : ℚ) +
            (logs.countP (fun l => hasAnyWord negativeWords (lowerStr l.user_message)) : ℚ)) * 100)) := by
  have hfe : logs.isEmpty = false := by
    cases logs with
    | nil => exact absurd rfl hne
    | cons a t => rfl
  refine ⟨?_, ?_, ?_⟩
  · simp only [Nat.add_eq_zero, List.countP_eq_zero, Bool.not_eq_true]
    constructor
    · rintro ⟨h1, h2⟩ l hl
      exact ⟨h1 l hl, h2 l hl⟩
    · intro h
      exact ⟨fun l hl => (h l hl).1, fun l hl => (h l hl).2⟩
  · intro h0
    rw [List.countP_eq_length_filter, List.countP_eq_length_filter] at h0
    unfold estimate_user_satisfaction
    simp only [hfe, Bool.false_eq_true, if_false]
    rw [if_pos h0]
  · intro h0
    rw [List.countP_eq_length_filter, List.countP_eq_length_filter] at h0
    unfold estimate_user_satisfaction
    simp only [hfe, Bool.false_eq_true, if_false]
    rw [if_neg h0, List.countP_eq_length_filter, List.countP_eq_length_filter]


/-- Witness for C9 amended: one interaction containing the positive
keyword "thank". -/
theorem C9_satisfaction_amended_witness :
    ([thankfulLog] : List InteractionRecord) ≠ [] ∧
    ([thankfulLog].countP (fun l => hasAnyWord positiveWords (lowerStr l.user_message)) +
      [thankfulLog].countP (fun l => hasAnyWord negativeWords (lowerStr l.user_message)) ≠ 0) ∧
    estimate_user_satisfaction [thankfulLog] =
      round2 ((([thankfulLog].countP (fun l => hasAnyWord positiveWords (lowerStr l.user_message)) : ℚ)) /
        (([thankfulLog].countP (fun l => hasAnyWord positiveWords (lowerStr l.user_message)) : ℚ) +
          ([thankfulLog].countP (fun l => hasAnyWord negativeWords (lowerStr l.user_message)) : ℚ)) * 100) :=
  ⟨by decide, by decide,
    (C9_satisfaction_amended [thankfulLog] (by decide)).2.2 (by decide)⟩


/-- C8 counterexample: hours 5 and 3 are tied for the highest count, yet
the reported peak hour is 5 — the first hour inserted into the
distribution — not the smallest tied hour value 3. -/
theorem C8_peak_hour_counterexample :
    hourDistribution tieState.call_logs = [(5, 1), (3, 1)] ∧
    (get_call_analytics tieState { t := 0, day := 0, hour := 0 }).overview.peak_hour = 5 ∧
    (5 : Nat) ≠ 3 := by
  refine ⟨by decide, by decide, by decide⟩


theorem hourCount_bumpHour (d : List (Nat × Nat)) (k h : Nat) :
    hourCount (bumpHour d k) h = hourCount d h + if h = k then 1 else 0 := by
  induction d with
  | nil =>
    by_cases hk : h = k
    · simp [bumpHour, hourCount, alookup, hk]
    · have hk' : ¬ k = h := fun he => hk he.symm
      simp [bumpHour, hourCount, alookup, hk, hk']
  | cons p t ih =>
    by_cases hp : p.1 = k
    · by_cases hh : p.1 = h
      · simp [bumpHour, hourCount, alookup, hp, hh, hh ▸ hp]
      · have h1 : ¬ h = k := fun he => hh (by rw [hp, he])
        have h2 : ¬ k = h := fun he => h1 he.symm
        simp [bumpHour, hourCount, alookup, hp, hh, h1, h2]
    · by_cases hh : p.1 = h
      · have h1 : ¬ h = k := fun he => hp (by rw [hh, he])
        simp [bumpHour, hourCount, alookup, hp, hh, h1]
      · simpa [bumpHour, hourCount, alookup, hp, hh] using ih


theorem hourCount_hourDistribution (calls : List CallRecord) (h : Nat) :
    hourCount (hourDistribution calls) h =
      calls.countP (fun c => decide (c.start_time.hour = h)) := by
  suffices H : ∀ (cs : List CallRecord) (d : List (Nat × Nat)),
      hourCount (cs.foldl (fun d c => bumpHour d c.start_time.hour) d) h =
        hourCount d h + cs.countP (fun c => decide (c.start_time.hour = h)) by
    simpa [hourDistribution, hourCount, alookup] using H calls []
  intro cs
  induction cs with
  | nil => intro d; simp
  | cons c t ih =>
    intro d
    simp only [List.foldl_cons, List.countP_cons]
    rw [ih, hourCount_bumpHour]
    by_cases hc : c.start_time.hour = h
    · simp [hc]; omega
    · have hc' : ¬ h = c.start_time.hour := fun he => hc he.symm
      simp [hc, hc']


theorem keysOf_bumpHour (d : List (Nat × Nat)) (k : Nat) :
    keysOf (bumpHour d k) = if k ∈ keysOf d then keysOf d else keysOf d ++ [k] := by
  induction d with
  | nil => simp [bumpHour, keysOf]
  | cons p t ih =>
    by_cases hp : p.1 = k
    · simp [bumpHour, keysOf, hp]
    · have hkp : ¬ k = p.1 := fun he => hp he.symm
      have ih' : List.map Prod.fst (bumpHour t k) =
          if k ∈ List.map Prod.fst t then List.map Prod.fst t
          else List.map Prod.fst t ++ [k] := ih
      simp only [bumpHour, hp, if_false, keysOf, List.map_cons, ih']
      by_cases hk : k ∈ List.map Prod.fst t
      · rw [if_pos hk, if_pos (List.mem_cons_of_mem _ hk)]
      · rw [if_neg hk, if_neg (by simp [List.mem_cons, hkp, hk])]
        rfl


theorem nodup_keysOf_bumpHour (d : List (Nat × Nat)) (k : Nat)
    (h : (keysOf d).Nodup) : (keysOf (bumpHour d k)).Nodup := by
  rw [keysOf_bumpHour]
  split
  · exact h
  · next hk => simp [List.nodup_append, h, hk]


theorem nodup_keysOf_hourDistribution (calls : List CallRecord) :
    (keysOf (hourDistribution calls)).Nodup := by
  suffices H : ∀ (cs : List CallRecord) (d : List (Nat × Nat)),
      (keysOf d).Nodup →
      (keysOf (cs.foldl (fun d c => bumpHour d c.start_time.hour) d)).Nodup by
    exact H calls [] (by simp [keysOf])
  intro cs
  induction cs with
  | nil => intro d hd; simpa using hd
  | cons c t ih =>
    intro d hd
    exact ih _ (nodup_keysOf_bumpHour d c.start_time.hour hd)


theorem alookup_of_mem_nodup (d : List (Nat × Nat)) (p : Nat × Nat)
    (hmem : p ∈ d) (hnd : (keysOf d).Nodup) : alookup d p.1 = some p.2 := by
  induction d with
  | nil => cases hmem
  | cons q t ih =>
    rcases List.mem_cons.mp hmem with he | ht
    · simp [alookup, he]
    · have hq : ¬ q.1 = p.1 := by
        intro he
        simp only [keysOf, List.map_cons, List.nodup_cons] at hnd
        exact hnd.1 (he ▸ (List.mem_map_of_mem Prod.fst ht))
      simp only [alookup, hq, if_false]
      exact ih ht (by
        simp only [keysOf, List.map_cons, List.nodup_cons] at hnd
        exact hnd.2)


theorem mem_of_alookup (d : List (Nat × Nat)) (k : Nat) (v : Nat)
    (h : alookup d k = some v) : (k, v) ∈ d := by
  induction d with
  | nil => cases h
  | cons q t ih =>
    by_cases hq : q.1 = k
    · simp only [alookup, hq, if_pos rfl] at h
      cases h
      rw [← hq]
      exact List.mem_cons_self _ _
    · simp only [alookup, hq, if_false] at h
      exact List.mem_cons.mpr (Or.inr (ih h))


theorem maxPairAux_mem (p : Nat × Nat) (l : List (Nat × Nat)) :
    maxPairAux p l ∈ p :: l := by
  induction l generalizing p with
  | nil => simp [maxPairAux]
  | cons q t ih =>
    simp only [maxPairAux]
    by_cases hq : q.2 > p.2
    · rw [if_pos hq]
      rcases List.mem_cons.mp (ih q) with h | h
      · simp [h]
      · simp [h]
    · rw [if_neg hq]
      rcases List.mem_cons.mp (ih p) with h | h
      · simp [h]
      · simp [h]


theorem maxPairAux_ge (p : Nat × Nat) (l : List (Nat × Nat)) :
    ∀ q ∈ p :: l, q.2 ≤ (maxPairAux p l).2 := by
  induction l generalizing p with
  | nil =>
    intro q hq
    rcases List.mem_cons.mp hq with h | h
    · simp [maxPairAux, h]
    · cases h
  | cons r t ih =>
    intro q hq
    have hbest : p.2 ≤ (if r.2 > p.2 then r else p).2 ∧
        r.2 ≤ (if r.2 > p.2 then r else p).2 := by
      split <;> omega
    have hres := ih (if r.2 > p.2 then r else p)
    have hb := hres _ (List.mem_cons_self _ _)
    rcases List.mem_cons.mp hq with h | h
    · subst h
      simp only [maxPairAux]
      omega
    · rcases List.mem_cons.mp h with h' | h'
      · subst h'
        simp only [maxPairAux]
        omega
      · exact hres _ (List.mem_cons_of_mem _ h')


theorem maxVal_cons (p : Nat × Nat) (l : List (Nat × Nat)) :
    maxVal (p :: l) = max p.2 (maxVal l) := rfl


theorem le_maxVal_of_mem {q : Nat × Nat} {l : List (Nat × Nat)}
    (h : q ∈ l) : q.2 ≤ maxVal l := by
  induction l with
  | nil => cases h
  | cons r t ih =>
    rcases List.mem_cons.mp h with h' | h'
    · subst h'; rw [maxVal_cons]; omega
    · have := ih h'; rw [maxVal_cons]; omega


theorem maxVal_le {l : List (Nat × Nat)} {v : Nat}
    (h : ∀ q ∈ l, q.2 ≤ v) : maxVal l ≤ v := by
  induction l with
  | nil => simp [maxVal]
  | cons r t ih =>
    rw [maxVal_cons]
    have h1 := h r (List.mem_cons_self _ _)
    have h2 := ih (fun q hq => h q (List.mem_cons_of_mem _ hq))
    omega


theorem maxPairAux_val (p : Nat × Nat) (l : List (Nat × Nat)) :
    (maxPairAux p l).2 = maxVal (p :: l) := by
  have h1 : (maxPairAux p l).2 ≤ maxVal (p :: l) :=
    le_maxVal_of_mem (maxPairAux_mem p l)
  have h2 : maxVal (p :: l) ≤ (maxPairAux p l).2 :=
    maxVal_le (maxPairAux_ge p l)
  omega


/-- The scan of `maxPairAux` returns the first entry attaining the
maximal value: ties are broken by insertion order, earliest entry
first. -/
theorem maxPairAux_eq_find (p : Nat × Nat) (l : List (Nat × Nat)) :
    (p :: l).find? (fun q => decide (maxVal (p :: l) ≤ q.2)) = some (maxPairAux p l) := by
  induction l generalizing p with
  | nil =>
    have : maxVal [p] ≤ p.2 := by rw [maxVal_cons]; simp [maxVal]
    simp [maxPairAux, List.find?, this]
  | cons q t ih =>
    by_cases hq : q.2 > p.2
    · have hqM : q.2 ≤ maxVal (q :: t) := le_maxVal_of_mem (List.mem_cons_self _ _)
      have hM : maxVal (p :: q :: t) = maxVal (q :: t) := by
        rw [maxVal_cons (p := p)]
        omega
      have hPp : (decide (maxVal (p :: q :: t) ≤ p.2)) = false := by
        rw [hM]
        simp only [decide_eq_false_iff_not]
        omega
      have hstep : maxPairAux p (q :: t) = maxPairAux q t := by
        simp only [maxPairAux, if_pos hq]
      rw [hstep]
      simp only [List.find?_cons, hPp]
      simp only [hM]
      exact ih q
    · have hM : maxVal (p :: q :: t) = maxVal (p :: t) := by
        rw [maxVal_cons (p := p), maxVal_cons (p := q), maxVal_cons (p := p)]
        omega
      have hstep : maxPairAux p (q :: t) = maxPairAux p t := by
        simp only [maxPairAux, if_neg hq]
      rw [hstep]
      by_cases hp : maxVal (p :: t) ≤ p.2
      · have hPp : (decide (maxVal (p :: q :: t) ≤ p.2)) = true := by
          rw [hM]; simpa using hp
        have hPp' : (decide (maxVal (p :: t) ≤ p.2)) = true := by simpa using hp
        have hih := ih p
        simp only [List.find?_cons, hPp'] at hih
        simp only [List.find?_cons, hPp]
        exact hih
      · have hPp : (decide (maxVal (p :: q :: t) ≤ p.2)) = false := by
          rw [hM]; simpa using hp
        have hPq : (decide (maxVal (p :: q :: t) ≤ q.2)) = false := by
          rw [hM]
          simp only [decide_eq_false_iff_not]
          omega
        have hPp' : (decide (maxVal (p :: t) ≤ p.2)) = false := by simpa using hp
        have hih := ih p
        simp only [List.find?_cons, hPp'] at hih
        simp only [List.find?_cons, hPp, hPq]
        simpa only [hM] using hih


theorem bumpHour_ne_nil (d : List (Nat × Nat)) (k : Nat) : bumpHour d k ≠ [] := by
  cases d with
  | nil => simp [bumpHour]
  | cons p t => by_cases hp : p.1 = k <;> simp [bumpHour, hp]


theorem hourDistribution_ne_nil (calls : List CallRecord) (h : calls ≠ []) :
    hourDistribution calls ≠ [] := by
  suffices H : ∀ (cs : List CallRecord) (d : List (Nat × Nat)), d ≠ [] →
      cs.foldl (fun d c => bumpHour d c.start_time.hour) d ≠ [] by
    cases calls with
    | nil => exact absurd rfl h
    | cons c t =>
      exact H t (bumpHour [] c.start_time.hour) (bumpHour_ne_nil _ _)
  intro cs
  induction cs with
  | nil => intro d hd; simpa using hd
  | cons c t ih => intro d hd; exact ih _ (bumpHour_ne_nil _ _)


theorem peak_hour_eval (st : AnalyticsState) (now : Timestamp)
    (hne : st.call_logs ≠ []) :
    (get_call_analytics st now).overview.peak_hour =
      maxKeyByVal (hourDistribution st.call_logs) := by
  have hfe : st.call_logs.isEmpty = false := by
    cases hcl : st.call_logs with
    | nil => exact absurd hcl hne
    | cons a t => rfl
  have hd : (hourDistribution st.call_logs).isEmpty = false := by
    have hdn := hourDistribution_ne_nil st.call_logs hne
    cases hh : hourDistribution st.call_logs with
    | nil => exact absurd hh hdn
    | cons a t => rfl
  unfold get_call_analytics
  simp only [hfe, Bool.false_eq_true, if_false, hd]


/-- C8 amended: for every non-empty call log the reported peak hour is a
mode of the start-hour distribution (no hour has a greater count),
and when several hours are tied for the highest count the reported one is
the tied hour first inserted into the distribution — the hour whose first
occurrence in the call log is earliest — not the smallest hour value.
(The original claim stated a smallest-hour tie-break.) -/
theorem C8_peak_hour_amended (st : AnalyticsState) (now : Timestamp)
    (hne : st.call_logs ≠ []) :
    (∀ h : Nat,
      st.call_logs.countP (fun c => decide (c.start_time.hour = h)) ≤
        st.call_logs.countP (fun c => decide (c.start_time.hour =
          (get_call_analytics st now).overview.peak_hour))) ∧
    ((hourDistribution st.call_logs).find?
        (fun q => decide (maxVal (hourDistribution st.call_logs) ≤ q.2))).map Prod.fst =
      some ((get_call_analytics st now).overview.peak_hour) := by
  have hpe := peak_hour_eval st now hne
  obtain ⟨p, t, hdist⟩ : ∃ p t, hourDistribution st.call_logs = p :: t := by
    cases hh : hourDistribution st.call_logs with
    | nil => exact absurd hh (hourDistribution_ne_nil st.call_logs hne)
    | cons a b => exact ⟨a, b, rfl⟩
  have hkey : maxKeyByVal (hourDistribution st.call_logs) = (maxPairAux p t).1 := by
    rw [hdist]; rfl
  have hnd : (keysOf (hourDistribution st.call_logs)).Nodup :=
    nodup_keysOf_hourDistribution _
  have hmem : maxPairAux p t ∈ hourDistribution st.call_logs := by
    rw [hdist]; exact maxPairAux_mem p t
  have hlook : alookup (hourDistribution st.call_logs) (maxPairAux p t).1 =
      some (maxPairAux p t).2 :=
    alookup_of_mem_nodup _ _ hmem hnd
  have hcount : hourCount (hourDistribution st.call_logs) (maxPairAux p t).1 =
      (maxPairAux p t).2 := by
    simp [hourCount, hlook]
  constructor
  · intro h
    rw [hpe, hkey, ← hourCount_hourDistribution, ← hourCount_hourDistribution, hcount]
    rcases hl : alookup (hourDistribution st.call_logs) h with _ | v
    · simp [hourCount, hl]
    · have hmem2 : (h, v) ∈ hourDistribution st.call_logs := mem_of_alookup _ _ _ hl
      have hge := maxPairAux_ge p t (h, v) (by rw [← hdist]; exact hmem2)
      simpa [hourCount, hl] using hge
  · rw [hpe, hkey, hdist, maxPairAux_eq_find p t]
    rfl


/-- Witness for C8 amended at the two-call tie state. -/
theorem C8_peak_hour_amended_witness :
    tieState.call_logs ≠ [] ∧
    tieState.call_logs.countP (fun c => decide (c.start_time.hour = 3)) ≤
      tieState.call_logs.countP (fun c => decide (c.start_time.hour =
        (get_call_analytics tieState { t := 0, day := 0, hour := 0 }).overview.peak_hour)) ∧
    ((hourDistribution tieState.call_logs).find?
        (fun q => decide (maxVal (hourDistribution tieState.call_logs) ≤ q.2))).map Prod.fst =
      some ((get_call_analytics tieState { t := 0, day := 0, hour := 0 }).overview.peak_hour) :=
  have h := C8_peak_hour_amended tieState { t := 0, day := 0, hour := 0 } (by decide)
  ⟨by decide, h.1 3, h.2⟩
